import Mathlib

/-
Shallow embedding of rotkehlchen/accounting/cost_basis.py (the cost-basis
FIFO engine of rotki).  FVal (exact decimal arithmetic) is embedded as ℚ,
Timestamp as ℤ.  The mutable per-asset ledgers become explicit state
passing: each method returns its result together with the updated ledger
(or calculator state) and the side-channel outputs (user messages,
critical log flag).
-/

/-- Assets.  The named constructors are the assets with hardwired roles in
the source (WETH/ETH ledger aliasing and the three fork rules); every other
asset is `other` with an identifier. -/
inductive Asset where
  | ETH
  | WETH
  | BTC
  | BCH
  | BSV
  | ETC
  | other (identifier : String)
deriving DecidableEq, Repr

/-- Locations are opaque strings here (the source has a Location enum whose
values never influence the cost-basis logic). -/
abbrev Location := String

/-- Modelled from the spec: the accounting event type tag carried by
ProcessedAccountingEvent (rotkehlchen.accounting.mixins.event is not under
src); only the prefork-acquisition tag is ever produced by this core. -/
inductive AccountingEventType where
  | prefork_acquisition
  | other_type
deriving DecidableEq, Repr

/-- Modelled from the spec: the two DBSettings fields this core reads
(rotkehlchen.db.settings is not under src): the main valuation currency and
the optional tax-free holding period. -/
structure DBSettings where
  main_currency : Asset
  taxfree_after_period : Option ℤ
deriving DecidableEq, Repr

/-- Modelled from the spec: fork boundary timestamp for the ETH/ETC DAO fork
(rotkehlchen.constants is not under src); concrete value as upstream. -/
def ETH_DAO_FORK_TS : ℤ := 1469020840

/-- Modelled from the spec: fork boundary timestamp for the BTC/BCH fork. -/
def BTC_BCH_FORK_TS : ℤ := 1501593374

/-- Modelled from the spec: fork boundary timestamp for the BCH/BSV fork. -/
def BCH_BSV_FORK_TS : ℤ := 1542300000

/-- Modelled from the spec: the fields of ProcessedAccountingEvent that the
cost-basis core reads or constructs (rotkehlchen.accounting.processed_event
is not under src): asset, timestamp, location, unit price, taxable amount,
free amount, notes and the event type tag. -/
structure ProcessedAccountingEvent where
  type : AccountingEventType
  notes : String
  location : Location
  timestamp : ℤ
  asset : Asset
  taxable_amount : ℚ
  free_amount : ℚ
  price : ℚ
deriving DecidableEq, Repr

/-- AssetAcquisitionEvent: an acquisition lot, i.e. the source event plus the
mutable remaining_amount counter. -/
structure AssetAcquisitionEvent where
  event : ProcessedAccountingEvent
  remaining_amount : ℚ
deriving DecidableEq, Repr

/-- The dataclass `__post_init__`: a fresh lot has
remaining_amount = event.taxable_amount. -/
def AssetAcquisitionEvent.ofEvent (event : ProcessedAccountingEvent) :
    AssetAcquisitionEvent :=
  { event := event, remaining_amount := event.taxable_amount }

/-- The `amount` property. -/
def AssetAcquisitionEvent.amount (a : AssetAcquisitionEvent) : ℚ :=
  a.event.taxable_amount

/-- The `timestamp` property. -/
def AssetAcquisitionEvent.timestamp (a : AssetAcquisitionEvent) : ℤ :=
  a.event.timestamp

/-- The `rate` property. -/
def AssetAcquisitionEvent.rate (a : AssetAcquisitionEvent) : ℚ :=
  a.event.price

/-- AssetSpendEvent: an immutable disposal record. -/
structure AssetSpendEvent where
  timestamp : ℤ
  location : Location
  amount : ℚ
  rate : ℚ
deriving DecidableEq, Repr

/-- CostBasisEvents: the per-asset ledger (used lots, pending lots, spends). -/
structure CostBasisEvents where
  used_acquisitions : List AssetAcquisitionEvent
  acquisitions : List AssetAcquisitionEvent
  spends : List AssetSpendEvent
deriving DecidableEq, Repr

/-- MatchedAcquisition: amount of a lot attributed to one spend.  The source
stores a live reference to the (later mutated) lot object; here we store the
value at append time.  The underlying ProcessedAccountingEvent is never
mutated in the source, so `event.event` is reference/value agnostic. -/
structure MatchedAcquisition where
  amount : ℚ
  event : AssetAcquisitionEvent
deriving DecidableEq, Repr

/-- CostBasisInfo: the aggregate result of matching one spend. -/
structure CostBasisInfo where
  taxable_amount : ℚ
  taxable_bought_cost : ℚ
  taxfree_bought_cost : ℚ
  matched_acquisitions : List MatchedAcquisition
  is_complete : Bool
deriving DecidableEq, Repr

/-- The messages sent to the MessagesAggregator collaborator by
inform_user_missing_acquisition. -/
inductive Message where
  | missingAcquisition (asset : Asset) (time : ℤ)
  | partialMissingAcquisition (asset : Asset) (time : ℤ)
      (found_amount : ℚ) (missing_amount : ℚ)
deriving DecidableEq, Repr

/-- inform_user_missing_acquisition: with no found_amount it reports a
missing acquisition, otherwise a partial (found vs missing) one. -/
def inform_user_missing_acquisition (asset : Asset) (time : ℤ)
    (found_amount : Option ℚ) (missing_amount : Option ℚ) : Message :=
  match found_amount with
  | none => Message.missingAcquisition asset time
  | some f => Message.partialMissingAcquisition asset time f (missing_amount.getD 0)

/-- Tax-free eligibility of one lot against the spend timestamp
(calculate_spend_cost_basis lines 386-391): False when the setting is None,
else acquisition_timestamp + taxfree_after_period < timestamp. -/
def at_taxfree_period (taxfree_after_period : Option ℤ)
    (acquisition_timestamp timestamp : ℤ) : Bool :=
  match taxfree_after_period with
  | none => false
  | some p => decide (acquisition_timestamp + p < timestamp)

/-- Net effect of the FIFO scan loop of calculate_spend_cost_basis:
the final accumulators, the sentinel leftover (-1 when the loop never broke),
the consumed lots (zeroed, = acquisitions[:stop_index]) and the rest
(= acquisitions[stop_index:]). -/
structure SpendLoopState where
  remaining_sold_amount : ℚ
  taxable_amount : ℚ
  taxfree_amount : ℚ
  taxable_bought_cost : ℚ
  taxfree_bought_cost : ℚ
  remaining_amount_from_last_buy : ℚ
  matched_acquisitions : List MatchedAcquisition
  consumed : List AssetAcquisitionEvent
  pending_rest : List AssetAcquisitionEvent
deriving Repr

/-- The FIFO scan loop of calculate_spend_cost_basis (lines 385-449),
translated to structural recursion on the pending-lot list.  The partial
(`remaining_sold_amount < lot.remaining_amount`) branch breaks; the full
branch zeroes the lot, accumulates and continues. -/
def spendLoop (taxfree_after_period : Option ℤ) (timestamp : ℤ) :
    List AssetAcquisitionEvent → ℚ → ℚ → ℚ → ℚ → ℚ →
    List MatchedAcquisition → SpendLoopState
  | [], remaining_sold_amount, taxable_amount, taxfree_amount,
      taxable_bought_cost, taxfree_bought_cost, matched_acquisitions =>
    { remaining_sold_amount := remaining_sold_amount
      taxable_amount := taxable_amount
      taxfree_amount := taxfree_amount
      taxable_bought_cost := taxable_bought_cost
      taxfree_bought_cost := taxfree_bought_cost
      remaining_amount_from_last_buy := -1
      matched_acquisitions := matched_acquisitions
      consumed := []
      pending_rest := [] }
  | acquisition_event :: rest, remaining_sold_amount, taxable_amount,
      taxfree_amount, taxable_bought_cost, taxfree_bought_cost,
      matched_acquisitions =>
    let tfp := at_taxfree_period taxfree_after_period
      acquisition_event.timestamp timestamp
    if remaining_sold_amount < acquisition_event.remaining_amount then
      let acquisition_cost := acquisition_event.rate * remaining_sold_amount
      { remaining_sold_amount := remaining_sold_amount
        taxable_amount :=
          if tfp then taxable_amount else taxable_amount + remaining_sold_amount
        taxfree_amount :=
          if tfp then taxfree_amount + remaining_sold_amount else taxfree_amount
        taxable_bought_cost :=
          if tfp then taxable_bought_cost else taxable_bought_cost + acquisition_cost
        taxfree_bought_cost :=
          if tfp then taxfree_bought_cost + acquisition_cost else taxfree_bought_cost
        remaining_amount_from_last_buy :=
          acquisition_event.remaining_amount - remaining_sold_amount
        matched_acquisitions := matched_acquisitions ++
          [{ amount := remaining_sold_amount, event := acquisition_event }]
        consumed := []
        pending_rest := acquisition_event :: rest }
    else
      let acquisition_cost :=
        acquisition_event.rate * acquisition_event.remaining_amount
      let out := spendLoop taxfree_after_period timestamp rest
        (remaining_sold_amount - acquisition_event.remaining_amount)
        (if tfp then taxable_amount
          else taxable_amount + acquisition_event.remaining_amount)
        (if tfp then taxfree_amount + acquisition_event.remaining_amount
          else taxfree_amount)
        (if tfp then taxable_bought_cost
          else taxable_bought_cost + acquisition_cost)
        (if tfp then taxfree_bought_cost + acquisition_cost
          else taxfree_bought_cost)
        (matched_acquisitions ++
          [{ amount := acquisition_event.remaining_amount,
             event := acquisition_event }])
      { out with consumed :=
          { acquisition_event with remaining_amount := 0 } :: out.consumed }

/-- `acquisitions[0].remaining_amount = remaining_amount_from_last_buy` after
the consumed lots were removed (the [] case is unreachable in the source
because the sentinel is only set when the scan broke on an existing lot). -/
def headUpdateRemaining (remaining_amount_from_last_buy : ℚ) :
    List AssetAcquisitionEvent → List AssetAcquisitionEvent
  | [] => []
  | e :: rest => { e with remaining_amount := remaining_amount_from_last_buy } :: rest

/-- calculate_spend_cost_basis (lines 363-492) on the spending asset's
ledger.  Returns the CostBasisInfo, the updated ledger, and the messages
sent to the messaging collaborator. -/
def calculate_spend_cost_basis (settings : DBSettings) (spending_amount : ℚ)
    (spending_asset : Asset) (timestamp : ℤ) (asset_events : CostBasisEvents) :
    CostBasisInfo × CostBasisEvents × List Message :=
  if asset_events.acquisitions.length = 0 then
    ({ taxable_amount := spending_amount
       taxable_bought_cost := 0
       taxfree_bought_cost := 0
       matched_acquisitions := []
       is_complete := false },
     asset_events,
     [inform_user_missing_acquisition spending_asset timestamp none none])
  else
    let out := spendLoop settings.taxfree_after_period timestamp
      asset_events.acquisitions spending_amount 0 0 0 0 []
    let asset_events1 : CostBasisEvents :=
      { used_acquisitions := asset_events.used_acquisitions ++ out.consumed
        acquisitions := out.pending_rest
        spends := asset_events.spends }
    if out.remaining_amount_from_last_buy ≠ -1 then
      let pending2 :=
        headUpdateRemaining out.remaining_amount_from_last_buy out.pending_rest
      ({ taxable_amount := out.taxable_amount
         taxable_bought_cost := out.taxable_bought_cost
         taxfree_bought_cost := out.taxfree_bought_cost
         matched_acquisitions := out.matched_acquisitions
         is_complete := true },
       { asset_events1 with acquisitions := pending2 },
       [])
    else if out.remaining_sold_amount ≠ 0 then
      ({ taxable_amount := spending_amount - out.taxfree_amount
         taxable_bought_cost := out.taxable_bought_cost
         taxfree_bought_cost := out.taxfree_bought_cost
         matched_acquisitions := out.matched_acquisitions
         is_complete := false },
       asset_events1,
       [inform_user_missing_acquisition spending_asset timestamp
         (some (out.taxable_amount + out.taxfree_amount))
         (some out.remaining_sold_amount)])
    else
      ({ taxable_amount := out.taxable_amount
         taxable_bought_cost := out.taxable_bought_cost
         taxfree_bought_cost := out.taxfree_bought_cost
         matched_acquisitions := out.matched_acquisitions
         is_complete := true },
       asset_events1,
       [])

/-- Net effect of the FIFO walk of reduce_asset_amount (lines 257-267):
remaining amount to reduce, the sentinel leftover (-1 when the walk never
broke) and acquisitions[stop_index:]. -/
structure ReduceLoopState where
  remaining_amount : ℚ
  remaining_amount_from_last_buy : ℚ
  pending_rest : List AssetAcquisitionEvent
deriving Repr

/-- The FIFO walk of reduce_asset_amount, translated to structural recursion
(it tracks only the amount, no cost accumulation, no matched list). -/
def reduceLoop : List AssetAcquisitionEvent → ℚ → ReduceLoopState
  | [], remaining_amount =>
    { remaining_amount := remaining_amount
      remaining_amount_from_last_buy := -1
      pending_rest := [] }
  | acquisition_event :: rest, remaining_amount =>
    if remaining_amount < acquisition_event.remaining_amount then
      { remaining_amount := remaining_amount
        remaining_amount_from_last_buy :=
          acquisition_event.remaining_amount - remaining_amount
        pending_rest := acquisition_event :: rest }
    else
      reduceLoop rest (remaining_amount - acquisition_event.remaining_amount)

/-- Outcome of reduce_asset_amount: the returned boolean, the updated ledger,
and whether log.critical fired. -/
structure ReduceResult where
  result : Bool
  events : CostBasisEvents
  critical_logged : Bool
deriving Repr

/-- reduce_asset_amount (lines 236-281) on the asset's ledger.  amount == 0
short-circuits to True; an empty pending list returns False (with no
critical log); otherwise the FIFO walk runs, used-up lots are deleted (not
moved to used_acquisitions), and a nonzero leftover demand logs critically
and returns False. -/
def reduce_asset_amount (asset_events : CostBasisEvents) (amount : ℚ)
    (_timestamp : ℤ) : ReduceResult :=
  if amount = 0 then
    { result := true, events := asset_events, critical_logged := false }
  else if asset_events.acquisitions.length = 0 then
    { result := false, events := asset_events, critical_logged := false }
  else
    let out := reduceLoop asset_events.acquisitions amount
    if out.remaining_amount_from_last_buy ≠ -1 then
      let pending2 :=
        headUpdateRemaining out.remaining_amount_from_last_buy out.pending_rest
      { result := true
        events := { asset_events with acquisitions := pending2 }
        critical_logged := false }
    else if out.remaining_amount ≠ 0 then
      { result := false
        events := { asset_events with acquisitions := out.pending_rest }
        critical_logged := true }
    else
      { result := true
        events := { asset_events with acquisitions := out.pending_rest }
        critical_logged := false }

/-- get_calculated_asset_amount (lines 494-505): None when there are no
pending lots, else the sum of their remaining amounts. -/
def get_calculated_asset_amount (asset_events : CostBasisEvents) : Option ℚ :=
  if asset_events.acquisitions.length = 0 then none
  else some (asset_events.acquisitions.foldl
    (fun amount acquisition_event => amount + acquisition_event.remaining_amount) 0)

/-- The calculator's mutable state: the settings and one ledger per asset
(the defaultdict is a total function defaulting to empty ledgers). -/
structure CalculatorState where
  settings : DBSettings
  events : Asset → CostBasisEvents

/-- get_events key canonicalization: WETH shares ETH's ledger. -/
def eventsKey (asset : Asset) : Asset :=
  if asset = Asset.WETH then Asset.ETH else asset

/-- get_events (lines 206-211). -/
def get_events (s : CalculatorState) (asset : Asset) : CostBasisEvents :=
  s.events (eventsKey asset)

/-- Writing back one asset's ledger (the in-place mutation of the source). -/
def set_events (s : CalculatorState) (asset : Asset) (ev : CostBasisEvents) :
    CalculatorState :=
  { s with events := fun b => if b = eventsKey asset then ev else s.events b }

/-- obtain_asset (lines 283-290): append a fresh lot to the tail of the
pending sequence of the event's asset. -/
def obtain_asset (s : CalculatorState) (event : ProcessedAccountingEvent) :
    CalculatorState :=
  let asset_event := AssetAcquisitionEvent.ofEvent event
  let asset_events := get_events s asset_event.event.asset
  set_events s asset_event.event.asset
    { asset_events with acquisitions := asset_events.acquisitions ++ [asset_event] }

/-- Outcome of reduce_asset_amount at calculator-state level. -/
structure ReduceStateResult where
  result : Bool
  state : CalculatorState
  critical_logged : Bool

/-- reduce_asset_amount lifted to the calculator state (the source method
reads the ledger through get_events and mutates it in place). -/
def reduce_asset_amount_state (s : CalculatorState) (asset : Asset)
    (amount : ℚ) (timestamp : ℤ) : ReduceStateResult :=
  let r := reduce_asset_amount (get_events s asset) amount timestamp
  { result := r.result
    state := set_events s asset r.events
    critical_logged := r.critical_logged }

/-- handle_prefork_asset_acquisitions (lines 507-555): for the three
hardwired fork boundaries, synthesize a same-amount same-price acquisition
event per descendant asset, feed each through obtain_asset, return them. -/
def handle_prefork_asset_acquisitions (s : CalculatorState)
    (location : Location) (timestamp : ℤ) (asset : Asset) (amount : ℚ)
    (price : ℚ) : CalculatorState × List ProcessedAccountingEvent :=
  let acquisitions : List (Asset × String) :=
    if asset = Asset.ETH ∧ timestamp < ETH_DAO_FORK_TS then
      [(Asset.ETC, "Prefork acquisition for ETC")]
    else if asset = Asset.BTC ∧ timestamp < BTC_BCH_FORK_TS then
      [(Asset.BCH, "Prefork acquisition for BCH"),
       (Asset.BSV, "Prefork acquisition for BSV")]
    else if asset = Asset.BCH ∧ timestamp < BCH_BSV_FORK_TS then
      [(Asset.BSV, "Prefork acquisition for BSV")]
    else []
  acquisitions.foldl
    (fun acc acquisition =>
      let event : ProcessedAccountingEvent :=
        { type := AccountingEventType.prefork_acquisition
          notes := acquisition.2
          location := location
          timestamp := timestamp
          asset := acquisition.1
          taxable_amount := amount
          free_amount := 0
          price := price }
      (obtain_asset acc.1 event, acc.2 ++ [event]))
    (s, [])

/-- handle_prefork_asset_spends (lines 557-580): the mirror operation,
reducing each descendant asset's ledger by the same amount (three
independent conditionals, as in the source). -/
def handle_prefork_asset_spends (s : CalculatorState) (asset : Asset)
    (amount : ℚ) (timestamp : ℤ) : CalculatorState :=
  let s1 :=
    if asset = Asset.ETH ∧ timestamp < ETH_DAO_FORK_TS then
      (reduce_asset_amount_state s Asset.ETC amount timestamp).state
    else s
  let s2 :=
    if asset = Asset.BTC ∧ timestamp < BTC_BCH_FORK_TS then
      let t := (reduce_asset_amount_state s1 Asset.BCH amount timestamp).state
      (reduce_asset_amount_state t Asset.BSV amount timestamp).state
    else s1
  if asset = Asset.BCH ∧ timestamp < BCH_BSV_FORK_TS then
    (reduce_asset_amount_state s2 Asset.BSV amount timestamp).state
  else s2

/-- Sum of remaining_amount over a lot list (the believed held balance). -/
def totalRemaining (lots : List AssetAcquisitionEvent) : ℚ :=
  (lots.map fun l => l.remaining_amount).sum

/-- Sum of the amounts of a matched-acquisition list. -/
def matchedTotal (ms : List MatchedAcquisition) : ℚ :=
  (ms.map fun m => m.amount).sum

/-- A concrete acquisition event used to instantiate theorems on closed inputs. -/
def sampleEvent (asset : Asset) (timestamp : ℤ) (taxable_amount price : ℚ) :
    ProcessedAccountingEvent :=
  { type := AccountingEventType.other_type
    notes := ""
    location := ""
    timestamp := timestamp
    asset := asset
    taxable_amount := taxable_amount
    free_amount := 0
    price := price }

/-- A concrete fresh lot built from sampleEvent. -/
def sampleLot (asset : Asset) (timestamp : ℤ) (taxable_amount price : ℚ) :
    AssetAcquisitionEvent :=
  AssetAcquisitionEvent.ofEvent (sampleEvent asset timestamp taxable_amount price)

/-- Concrete settings with the tax-free rule disabled. -/
def sampleSettings : DBSettings :=
  { main_currency := Asset.other "USD", taxfree_after_period := none }

/-- The synthesized BCH acquisition event for a pre-fork BTC acquisition. -/
def preforkEventBCH (location : Location) (timestamp : ℤ)
    (amount price : ℚ) : ProcessedAccountingEvent :=
  { type := AccountingEventType.prefork_acquisition
    notes := "Prefork acquisition for BCH"
    location := location
    timestamp := timestamp
    asset := Asset.BCH
    taxable_amount := amount
    free_amount := 0
    price := price }

/-- The synthesized BSV acquisition event for a pre-fork BTC acquisition. -/
def preforkEventBSV (location : Location) (timestamp : ℤ)
    (amount price : ℚ) : ProcessedAccountingEvent :=
  { type := AccountingEventType.prefork_acquisition
    notes := "Prefork acquisition for BSV"
    location := location
    timestamp := timestamp
    asset := Asset.BSV
    taxable_amount := amount
    free_amount := 0
    price := price }

/-- Concrete settings with a 100-second tax-free holding period. -/
def wSettingsP : DBSettings :=
  { main_currency := Asset.other "USD", taxfree_after_period := some 100 }

/-- The empty per-asset ledger. -/
def emptyEvents : CostBasisEvents :=
  { used_acquisitions := [], acquisitions := [], spends := [] }

/-- A concrete calculator state holding one BCH lot and one BSV lot. -/
def sampleState : CalculatorState :=
  { settings := sampleSettings
    events := fun a =>
      if a = Asset.BCH then
        { used_acquisitions := [], acquisitions := [sampleLot Asset.BCH 0 5 1],
          spends := [] }
      else if a = Asset.BSV then
        { used_acquisitions := [], acquisitions := [sampleLot Asset.BSV 0 7 1],
          spends := [] }
      else emptyEvents }

/-
Theorems.
-/

theorem totalRemaining_nil : totalRemaining [] = 0 := rfl

theorem totalRemaining_cons (l : AssetAcquisitionEvent)
    (ls : List AssetAcquisitionEvent) :
    totalRemaining (l :: ls) = l.remaining_amount + totalRemaining ls := by
  simp [totalRemaining]

theorem totalRemaining_nonneg (ls : List AssetAcquisitionEvent)
    (h : ∀ l ∈ ls, 0 ≤ l.remaining_amount) : 0 ≤ totalRemaining ls := by
  induction ls with
  | nil => simp [totalRemaining]
  | cons e rest ih =>
    rw [totalRemaining_cons]
    have h1 : 0 ≤ e.remaining_amount := h e (List.mem_cons_self _ _)
    have h2 : 0 ≤ totalRemaining rest :=
      ih fun l hl => h l (List.mem_cons_of_mem _ hl)
    linarith

theorem lot_eta (l : AssetAcquisitionEvent) :
    ({ l with remaining_amount := l.remaining_amount } : AssetAcquisitionEvent) = l :=
  rfl

/-- When the spend equals the total remaining of a front segment of the
pending lots and the next lot has positive remaining amount, the scan fully
consumes the front segment and then breaks on that next lot with a
zero-amount matched entry and an unchanged leftover. -/
theorem spendLoop_consume_front (p : Option ℤ) (ts : ℤ)
    (lots1 : List AssetAcquisitionEvent) :
    ∀ (lot : AssetAcquisitionEvent) (rest : List AssetAcquisitionEvent)
      (ta tf tc fc : ℚ) (m : List MatchedAcquisition),
      (∀ l ∈ lots1, 0 ≤ l.remaining_amount) → 0 < lot.remaining_amount →
      ((spendLoop p ts (lots1 ++ lot :: rest) (totalRemaining lots1)
          ta tf tc fc m).remaining_amount_from_last_buy
        = lot.remaining_amount) ∧
      ((spendLoop p ts (lots1 ++ lot :: rest) (totalRemaining lots1)
          ta tf tc fc m).pending_rest = lot :: rest) ∧
      ((spendLoop p ts (lots1 ++ lot :: rest) (totalRemaining lots1)
          ta tf tc fc m).consumed
        = lots1.map fun l => { l with remaining_amount := 0 }) ∧
      ((spendLoop p ts (lots1 ++ lot :: rest) (totalRemaining lots1)
          ta tf tc fc m).matched_acquisitions
        = m ++ (lots1.map fun l =>
            ({ amount := l.remaining_amount, event := l } : MatchedAcquisition))
          ++ [({ amount := 0, event := lot } : MatchedAcquisition)]) := by
  induction lots1 with
  | nil =>
    intro lot rest ta tf tc fc m _ hpos
    have h0 : totalRemaining ([] : List AssetAcquisitionEvent) = 0 := rfl
    rw [List.nil_append, h0]
    simp [spendLoop, hpos]
  | cons e lots1 ih =>
    intro lot rest ta tf tc fc m hnn hpos
    have hnn1 : ∀ l ∈ lots1, 0 ≤ l.remaining_amount :=
      fun l hl => hnn l (List.mem_cons_of_mem _ hl)
    have htail : 0 ≤ totalRemaining lots1 := totalRemaining_nonneg lots1 hnn1
    have hnlt : ¬ totalRemaining (e :: lots1) < e.remaining_amount := by
      rw [totalRemaining_cons]; linarith
    have harg : totalRemaining (e :: lots1) - e.remaining_amount
        = totalRemaining lots1 := by
      rw [totalRemaining_cons]; ring
    obtain ⟨ih1, ih2, ih3, ih4⟩ := ih lot rest
      (if at_taxfree_period p e.timestamp ts then ta
        else ta + e.remaining_amount)
      (if at_taxfree_period p e.timestamp ts then tf + e.remaining_amount
        else tf)
      (if at_taxfree_period p e.timestamp ts then tc
        else tc + e.rate * e.remaining_amount)
      (if at_taxfree_period p e.timestamp ts then fc + e.rate * e.remaining_amount
        else fc)
      (m ++ [({ amount := e.remaining_amount, event := e } : MatchedAcquisition)])
      hnn1 hpos
    rw [List.cons_append]
    simp only [spendLoop, hnlt, if_false, harg]
    refine ⟨ih1, ih2, ?_, ?_⟩
    · simp only [List.map_cons]
      rw [ih3]
    · rw [ih4]
      simp [List.append_assoc]

/-- When the demanded amount is at least the total remaining of the pending
lots, the scan consumes every lot fully: the sentinel stays -1, nothing is
left pending, all lots move (zeroed) to the consumed list, one full matched
entry per lot is recorded, and the taxable/taxfree accumulators together grow
by exactly the total remaining. -/
theorem spendLoop_consume_all (p : Option ℤ) (ts : ℤ)
    (lots : List AssetAcquisitionEvent) :
    ∀ (rem ta tf tc fc : ℚ) (m : List MatchedAcquisition),
      (∀ l ∈ lots, 0 ≤ l.remaining_amount) → totalRemaining lots ≤ rem →
      ((spendLoop p ts lots rem ta tf tc fc m).remaining_sold_amount
        = rem - totalRemaining lots) ∧
      ((spendLoop p ts lots rem ta tf tc fc m).remaining_amount_from_last_buy
        = -1) ∧
      ((spendLoop p ts lots rem ta tf tc fc m).pending_rest = []) ∧
      ((spendLoop p ts lots rem ta tf tc fc m).consumed
        = lots.map fun l => { l with remaining_amount := 0 }) ∧
      ((spendLoop p ts lots rem ta tf tc fc m).matched_acquisitions
        = m ++ lots.map fun l =>
            ({ amount := l.remaining_amount, event := l } : MatchedAcquisition)) ∧
      ((spendLoop p ts lots rem ta tf tc fc m).taxable_amount
          + (spendLoop p ts lots rem ta tf tc fc m).taxfree_amount
        = ta + tf + totalRemaining lots) := by
  induction lots with
  | nil =>
    intro rem ta tf tc fc m _ _
    have h0 : totalRemaining ([] : List AssetAcquisitionEvent) = 0 := rfl
    rw [h0]
    simp [spendLoop]
  | cons e lots ih =>
    intro rem ta tf tc fc m hnn hle
    have hnn1 : ∀ l ∈ lots, 0 ≤ l.remaining_amount :=
      fun l hl => hnn l (List.mem_cons_of_mem _ hl)
    have htail : 0 ≤ totalRemaining lots := totalRemaining_nonneg lots hnn1
    rw [totalRemaining_cons] at hle
    have hnlt : ¬ rem < e.remaining_amount := by linarith
    have hle1 : totalRemaining lots ≤ rem - e.remaining_amount := by linarith
    obtain ⟨ih1, ih2, ih3, ih4, ih5, ih6⟩ := ih (rem - e.remaining_amount)
      (if at_taxfree_period p e.timestamp ts then ta
        else ta + e.remaining_amount)
      (if at_taxfree_period p e.timestamp ts then tf + e.remaining_amount
        else tf)
      (if at_taxfree_period p e.timestamp ts then tc
        else tc + e.rate * e.remaining_amount)
      (if at_taxfree_period p e.timestamp ts then fc + e.rate * e.remaining_amount
        else fc)
      (m ++ [({ amount := e.remaining_amount, event := e } : MatchedAcquisition)])
      hnn1 hle1
    simp only [spendLoop, hnlt, if_false]
    refine ⟨?_, ih2, ih3, ?_, ?_, ?_⟩
    · rw [ih1, totalRemaining_cons]; ring
    · simp only [List.map_cons]; rw [ih4]
    · rw [ih5]; simp [List.append_assoc]
    · rw [ih6, totalRemaining_cons]
      cases at_taxfree_period p e.timestamp ts <;> simp <;> ring

/-- Total of the amounts of the full matched entries equals the total
remaining of the lots they came from. -/
theorem matchedTotal_map_full (lots : List AssetAcquisitionEvent) :
    matchedTotal (lots.map fun l =>
      ({ amount := l.remaining_amount, event := l } : MatchedAcquisition))
    = totalRemaining lots := by
  simp only [matchedTotal, totalRemaining, List.map_map]
  rfl

/-- Claim C5: when the pending lots are non-empty but their total remaining
is strictly below the spend, the function reports a partial-missing message
with the found and missing amounts, returns taxable_amount equal to the spend
minus the accumulated tax-free amount, sets is_complete = false, and the
matched entries cover exactly the found (available) amount. -/
theorem calculate_spend_cost_basis_partial_missing
    (settings : DBSettings) (asset : Asset) (timestamp : ℤ)
    (spending_amount : ℚ) (asset_events : CostBasisEvents)
    (hne : asset_events.acquisitions ≠ [])
    (hnn : ∀ l ∈ asset_events.acquisitions, 0 ≤ l.remaining_amount)
    (hlt : totalRemaining asset_events.acquisitions < spending_amount) :
    ((calculate_spend_cost_basis settings spending_amount asset timestamp
        asset_events).1.is_complete = false) ∧
    ((calculate_spend_cost_basis settings spending_amount asset timestamp
        asset_events).1.taxable_amount
      = spending_amount - (spendLoop settings.taxfree_after_period timestamp
          asset_events.acquisitions spending_amount 0 0 0 0 []).taxfree_amount) ∧
    ((calculate_spend_cost_basis settings spending_amount asset timestamp
        asset_events).2.2
      = [Message.partialMissingAcquisition asset timestamp
          (totalRemaining asset_events.acquisitions)
          (spending_amount - totalRemaining asset_events.acquisitions)]) ∧
    (matchedTotal (calculate_spend_cost_basis settings spending_amount asset
        timestamp asset_events).1.matched_acquisitions
      = totalRemaining asset_events.acquisitions) := by
  obtain ⟨a1, a2, a3, a4, a5, a6⟩ := spendLoop_consume_all
    settings.taxfree_after_period timestamp asset_events.acquisitions
    spending_amount 0 0 0 0 [] hnn hlt.le
  have hlen : ¬ asset_events.acquisitions.length = 0 := by
    simpa [List.length_eq_zero] using hne
  have hrs : spending_amount - totalRemaining asset_events.acquisitions ≠ 0 :=
    sub_ne_zero.mpr (ne_of_gt hlt)
  simp only [calculate_spend_cost_basis]
  rw [if_neg hlen]
  simp only [a1, a2, a5]
  rw [if_neg (by simp)]
  rw [if_pos hrs]
  refine ⟨rfl, rfl, ?_, ?_⟩
  · simp only [inform_user_missing_acquisition, Option.getD]
    rw [a6]
    norm_num
  · rw [List.nil_append, matchedTotal_map_full]

/-- Witness for C5: one pending lot of amount 5, spend of 8. -/
theorem calculate_spend_cost_basis_partial_missing_witness :
    ((⟨[], [sampleLot Asset.BTC 0 5 2], []⟩ : CostBasisEvents).acquisitions
      ≠ []) ∧
    (∀ l ∈ (⟨[], [sampleLot Asset.BTC 0 5 2], []⟩ :
        CostBasisEvents).acquisitions, (0 : ℚ) ≤ l.remaining_amount) ∧
    (totalRemaining (⟨[], [sampleLot Asset.BTC 0 5 2], []⟩ :
        CostBasisEvents).acquisitions < 8) ∧
    (((calculate_spend_cost_basis sampleSettings 8 Asset.BTC 9
        ⟨[], [sampleLot Asset.BTC 0 5 2], []⟩).1.is_complete = false) ∧
    ((calculate_spend_cost_basis sampleSettings 8 Asset.BTC 9
        ⟨[], [sampleLot Asset.BTC 0 5 2], []⟩).1.taxable_amount
      = 8 - (spendLoop sampleSettings.taxfree_after_period 9
          (⟨[], [sampleLot Asset.BTC 0 5 2], []⟩ :
            CostBasisEvents).acquisitions 8 0 0 0 0 []).taxfree_amount) ∧
    ((calculate_spend_cost_basis sampleSettings 8 Asset.BTC 9
        ⟨[], [sampleLot Asset.BTC 0 5 2], []⟩).2.2
      = [Message.partialMissingAcquisition Asset.BTC 9
          (totalRemaining (⟨[], [sampleLot Asset.BTC 0 5 2], []⟩ :
            CostBasisEvents).acquisitions)
          (8 - totalRemaining (⟨[], [sampleLot Asset.BTC 0 5 2], []⟩ :
            CostBasisEvents).acquisitions)]) ∧
    (matchedTotal (calculate_spend_cost_basis sampleSettings 8 Asset.BTC 9
        ⟨[], [sampleLot Asset.BTC 0 5 2], []⟩).1.matched_acquisitions
      = totalRemaining (⟨[], [sampleLot Asset.BTC 0 5 2], []⟩ :
          CostBasisEvents).acquisitions)) := by
  have hlt : totalRemaining (⟨[], [sampleLot Asset.BTC 0 5 2], []⟩ :
      CostBasisEvents).acquisitions < 8 := by
    norm_num [totalRemaining, sampleLot, AssetAcquisitionEvent.ofEvent, sampleEvent]
  have h := calculate_spend_cost_basis_partial_missing sampleSettings
    Asset.BTC 9 8 ⟨[], [sampleLot Asset.BTC 0 5 2], []⟩
    (by decide) (by decide) hlt
  exact ⟨by decide, by decide, hlt, h⟩

/-- Claim C1: spending an asset whose pending-acquisition sequence is empty
does not raise, reports a missing-acquisition message, and returns the whole
spend as taxable with zero cost basis, no matches and is_complete = false
(the ledger is returned unchanged). -/
theorem calculate_spend_cost_basis_no_acquisitions
    (settings : DBSettings) (spending_amount : ℚ) (spending_asset : Asset)
    (timestamp : ℤ) (used : List AssetAcquisitionEvent)
    (spends : List AssetSpendEvent) :
    calculate_spend_cost_basis settings spending_amount spending_asset
      timestamp ⟨used, [], spends⟩ =
    ({ taxable_amount := spending_amount
       taxable_bought_cost := 0
       taxfree_bought_cost := 0
       matched_acquisitions := []
       is_complete := false },
     ⟨used, [], spends⟩,
     [Message.missingAcquisition spending_asset timestamp]) := by
  rfl

/-- Claim C2: with a single pending lot of remaining amount 10, spending 4
splits the lot: it stays pending with remaining_amount 6 (not moved to the
used sequence), and the result has one matched entry of amount 4 with
is_complete = true. -/
theorem calculate_spend_cost_basis_partial_lot_split
    (settings : DBSettings) (asset : Asset) (timestamp : ℤ)
    (lot : AssetAcquisitionEvent) (used : List AssetAcquisitionEvent)
    (spends : List AssetSpendEvent) (h : lot.remaining_amount = 10) :
    ((calculate_spend_cost_basis settings 4 asset timestamp
        ⟨used, [lot], spends⟩).2.1.acquisitions
      = [{ lot with remaining_amount := 6 }]) ∧
    ((calculate_spend_cost_basis settings 4 asset timestamp
        ⟨used, [lot], spends⟩).2.1.used_acquisitions = used) ∧
    (((calculate_spend_cost_basis settings 4 asset timestamp
        ⟨used, [lot], spends⟩).1.matched_acquisitions.map
          fun m => (m.amount, m.event.event)) = [((4 : ℚ), lot.event)]) ∧
    ((calculate_spend_cost_basis settings 4 asset timestamp
        ⟨used, [lot], spends⟩).1.is_complete = true) := by
  have h4 : (4 : ℚ) < lot.remaining_amount := by rw [h]; norm_num
  have hne : ¬ lot.remaining_amount - 4 = -1 := by rw [h]; norm_num
  simp [calculate_spend_cost_basis, spendLoop, headUpdateRemaining, h4, hne, h]
  norm_num

/-- Claim C3: with at least three pending lots, spending exactly the sum of
the two oldest lots' remaining amounts consumes both fully, moves both
(zeroed) to the used sequence, removes them from pending, leaves the third
lot unchanged in pending, and returns is_complete = true. -/
theorem calculate_spend_cost_basis_full_lot_exhaustion
    (settings : DBSettings) (asset : Asset) (timestamp : ℤ)
    (l1 l2 l3 : AssetAcquisitionEvent) (rest : List AssetAcquisitionEvent)
    (used : List AssetAcquisitionEvent) (spends : List AssetSpendEvent)
    (h1 : 0 ≤ l1.remaining_amount) (h2 : 0 ≤ l2.remaining_amount)
    (h3 : 0 < l3.remaining_amount) :
    ((calculate_spend_cost_basis settings
        (l1.remaining_amount + l2.remaining_amount) asset timestamp
        ⟨used, l1 :: l2 :: l3 :: rest, spends⟩).2.1.acquisitions
      = l3 :: rest) ∧
    ((calculate_spend_cost_basis settings
        (l1.remaining_amount + l2.remaining_amount) asset timestamp
        ⟨used, l1 :: l2 :: l3 :: rest, spends⟩).2.1.used_acquisitions
      = used ++ [{ l1 with remaining_amount := 0 },
                 { l2 with remaining_amount := 0 }]) ∧
    ((calculate_spend_cost_basis settings
        (l1.remaining_amount + l2.remaining_amount) asset timestamp
        ⟨used, l1 :: l2 :: l3 :: rest, spends⟩).1.is_complete = true) := by
  have hsum : l1.remaining_amount + l2.remaining_amount
      = totalRemaining [l1, l2] := by
    simp [totalRemaining]
  have hlist : l1 :: l2 :: l3 :: rest = [l1, l2] ++ l3 :: rest := rfl
  rw [hsum, hlist]
  have hnn : ∀ l ∈ [l1, l2], 0 ≤ l.remaining_amount := by
    intro l hl
    rcases List.mem_cons.mp hl with h | h
    · rw [h]; exact h1
    · rcases List.mem_cons.mp h with h | h
      · rw [h]; exact h2
      · cases h
  obtain ⟨f1, f2, f3, f4⟩ := spendLoop_consume_front
    settings.taxfree_after_period timestamp [l1, l2] l3 rest 0 0 0 0 [] hnn h3
  have hsent : ¬ l3.remaining_amount = -1 := by
    intro hc; rw [hc] at h3; norm_num at h3
  simp only [calculate_spend_cost_basis]
  rw [if_neg (by simp)]
  simp only [f1, f2, f3, f4]
  rw [if_pos hsent]
  refine ⟨?_, ?_, rfl⟩
  · simp [headUpdateRemaining, lot_eta]
  · simp

/-- Witness for C3 at three concrete lots (amounts 3, 4 and 9). -/
theorem calculate_spend_cost_basis_full_lot_exhaustion_witness :
    ((0 : ℚ) ≤ (sampleLot Asset.BTC 0 3 1).remaining_amount) ∧
    ((0 : ℚ) ≤ (sampleLot Asset.BTC 1 4 1).remaining_amount) ∧
    ((0 : ℚ) < (sampleLot Asset.BTC 2 9 1).remaining_amount) ∧
    ((calculate_spend_cost_basis sampleSettings
        ((sampleLot Asset.BTC 0 3 1).remaining_amount
          + (sampleLot Asset.BTC 1 4 1).remaining_amount) Asset.BTC 5
        ⟨[], [sampleLot Asset.BTC 0 3 1, sampleLot Asset.BTC 1 4 1,
              sampleLot Asset.BTC 2 9 1], []⟩).2.1.acquisitions
      = [sampleLot Asset.BTC 2 9 1]) ∧
    ((calculate_spend_cost_basis sampleSettings
        ((sampleLot Asset.BTC 0 3 1).remaining_amount
          + (sampleLot Asset.BTC 1 4 1).remaining_amount) Asset.BTC 5
        ⟨[], [sampleLot Asset.BTC 0 3 1, sampleLot Asset.BTC 1 4 1,
              sampleLot Asset.BTC 2 9 1], []⟩).2.1.used_acquisitions
      = [] ++ [{ sampleLot Asset.BTC 0 3 1 with remaining_amount := 0 },
               { sampleLot Asset.BTC 1 4 1 with remaining_amount := 0 }]) ∧
    ((calculate_spend_cost_basis sampleSettings
        ((sampleLot Asset.BTC 0 3 1).remaining_amount
          + (sampleLot Asset.BTC 1 4 1).remaining_amount) Asset.BTC 5
        ⟨[], [sampleLot Asset.BTC 0 3 1, sampleLot Asset.BTC 1 4 1,
              sampleLot Asset.BTC 2 9 1], []⟩).1.is_complete = true) := by
  have h := calculate_spend_cost_basis_full_lot_exhaustion sampleSettings
    Asset.BTC 5 (sampleLot Asset.BTC 0 3 1) (sampleLot Asset.BTC 1 4 1)
    (sampleLot Asset.BTC 2 9 1) [] [] [] (by norm_num [sampleLot,
      AssetAcquisitionEvent.ofEvent, sampleEvent]) (by norm_num [sampleLot,
      AssetAcquisitionEvent.ofEvent, sampleEvent]) (by norm_num [sampleLot,
      AssetAcquisitionEvent.ofEvent, sampleEvent])
  exact ⟨by norm_num [sampleLot, AssetAcquisitionEvent.ofEvent, sampleEvent],
    by norm_num [sampleLot, AssetAcquisitionEvent.ofEvent, sampleEvent],
    by norm_num [sampleLot, AssetAcquisitionEvent.ofEvent, sampleEvent],
    h.1, h.2.1, h.2.2⟩

/-- Claim C10 (implicit): when the spend equals the total remaining of a
strict front segment of the pending lots, the matched list carries, after the
entries for the fully consumed lots, one extra entry of amount exactly zero
referencing the first unconsumed lot, whose remaining_amount is unchanged. -/
theorem calculate_spend_cost_basis_zero_amount_entry
    (settings : DBSettings) (asset : Asset) (timestamp : ℤ)
    (lots1 : List AssetAcquisitionEvent) (lot : AssetAcquisitionEvent)
    (rest used : List AssetAcquisitionEvent) (spends : List AssetSpendEvent)
    (hnn : ∀ l ∈ lots1, 0 ≤ l.remaining_amount)
    (hpos : 0 < lot.remaining_amount) :
    (((calculate_spend_cost_basis settings (totalRemaining lots1) asset
        timestamp ⟨used, lots1 ++ lot :: rest, spends⟩).1.matched_acquisitions.map
          fun m => (m.amount, m.event.event))
      = (lots1.map fun l => (l.remaining_amount, l.event))
        ++ [((0 : ℚ), lot.event)]) ∧
    ((calculate_spend_cost_basis settings (totalRemaining lots1) asset
        timestamp ⟨used, lots1 ++ lot :: rest, spends⟩).2.1.acquisitions
      = lot :: rest) := by
  obtain ⟨f1, f2, f3, f4⟩ := spendLoop_consume_front
    settings.taxfree_after_period timestamp lots1 lot rest 0 0 0 0 [] hnn hpos
  have hsent : ¬ lot.remaining_amount = -1 := by
    intro hc; rw [hc] at hpos; norm_num at hpos
  simp only [calculate_spend_cost_basis]
  rw [if_neg (by simp)]
  simp only [f1, f2, f3, f4]
  rw [if_pos hsent]
  refine ⟨?_, ?_⟩
  · simp [List.map_map, Function.comp]
  · simp [headUpdateRemaining, lot_eta]

/-- Witness for C10: two front lots of amounts 2 and 3, a spend of their
total 5, and a leftover lot of amount 8. -/
theorem calculate_spend_cost_basis_zero_amount_entry_witness :
    (∀ l ∈ [sampleLot Asset.BTC 0 2 1, sampleLot Asset.BTC 1 3 1],
      (0 : ℚ) ≤ l.remaining_amount) ∧
    ((0 : ℚ) < (sampleLot Asset.BTC 2 8 1).remaining_amount) ∧
    (((calculate_spend_cost_basis sampleSettings
        (totalRemaining [sampleLot Asset.BTC 0 2 1, sampleLot Asset.BTC 1 3 1])
        Asset.BTC 5
        ⟨[], [sampleLot Asset.BTC 0 2 1, sampleLot Asset.BTC 1 3 1]
          ++ sampleLot Asset.BTC 2 8 1 :: [], []⟩).1.matched_acquisitions.map
          fun m => (m.amount, m.event.event))
      = ([sampleLot Asset.BTC 0 2 1, sampleLot Asset.BTC 1 3 1].map
          fun l => (l.remaining_amount, l.event))
        ++ [((0 : ℚ), (sampleLot Asset.BTC 2 8 1).event)]) ∧
    ((calculate_spend_cost_basis sampleSettings
        (totalRemaining [sampleLot Asset.BTC 0 2 1, sampleLot Asset.BTC 1 3 1])
        Asset.BTC 5
        ⟨[], [sampleLot Asset.BTC 0 2 1, sampleLot Asset.BTC 1 3 1]
          ++ sampleLot Asset.BTC 2 8 1 :: [], []⟩).2.1.acquisitions
      = sampleLot Asset.BTC 2 8 1 :: []) := by
  have h := calculate_spend_cost_basis_zero_amount_entry sampleSettings
    Asset.BTC 5 [sampleLot Asset.BTC 0 2 1, sampleLot Asset.BTC 1 3 1]
    (sampleLot Asset.BTC 2 8 1) [] [] []
    (by decide) (by decide)
  exact ⟨by decide, by decide, h.1, h.2⟩

/-- When the demand is between 0 and the total remaining, the reduce walk
either breaks with a sentinel (and the head-updated rest totals the old total
minus the demand), or consumes everything exactly. -/
theorem reduceLoop_le (lots : List AssetAcquisitionEvent) :
    ∀ (rem : ℚ), (∀ l ∈ lots, 0 < l.remaining_amount) → 0 ≤ rem →
      rem ≤ totalRemaining lots →
      ((reduceLoop lots rem).remaining_amount_from_last_buy ≠ -1 ∧
        totalRemaining (headUpdateRemaining
          (reduceLoop lots rem).remaining_amount_from_last_buy
          (reduceLoop lots rem).pending_rest)
        = totalRemaining lots - rem) ∨
      ((reduceLoop lots rem).remaining_amount_from_last_buy = -1 ∧
        (reduceLoop lots rem).remaining_amount = 0 ∧
        (reduceLoop lots rem).pending_rest = [] ∧
        rem = totalRemaining lots) := by
  induction lots with
  | nil =>
    intro rem _ h1 h2
    have h0 : totalRemaining ([] : List AssetAcquisitionEvent) = 0 := rfl
    rw [h0] at h2
    have hrem : rem = 0 := le_antisymm h2 h1
    right
    refine ⟨rfl, hrem, rfl, ?_⟩
    rw [hrem, h0]
  | cons e rest ih =>
    intro rem hpos h1 h2
    have hpos1 : ∀ l ∈ rest, 0 < l.remaining_amount :=
      fun l hl => hpos l (List.mem_cons_of_mem _ hl)
    rw [totalRemaining_cons] at h2
    by_cases hlt : rem < e.remaining_amount
    · left
      simp only [reduceLoop, hlt, if_true]
      constructor
      · intro hc
        have hgt : 0 < e.remaining_amount - rem := by linarith
        rw [hc] at hgt
        norm_num at hgt
      · simp only [headUpdateRemaining, totalRemaining_cons]
        ring
    · have hge : e.remaining_amount ≤ rem := not_lt.mp hlt
      have h1a : 0 ≤ rem - e.remaining_amount := by linarith
      have h2a : rem - e.remaining_amount ≤ totalRemaining rest := by linarith
      simp only [reduceLoop, hlt, if_false]
      rcases ih (rem - e.remaining_amount) hpos1 h1a h2a with
        ⟨ha, hb⟩ | ⟨ha, hb, hc, hd⟩
      · left
        refine ⟨ha, ?_⟩
        rw [hb, totalRemaining_cons]
        ring
      · right
        refine ⟨ha, hb, hc, ?_⟩
        rw [totalRemaining_cons]
        linarith

/-- When the demand strictly exceeds the total remaining, the reduce walk
exhausts every lot and ends with the excess demand, sentinel -1 and nothing
pending. -/
theorem reduceLoop_gt (lots : List AssetAcquisitionEvent) :
    ∀ (rem : ℚ), (∀ l ∈ lots, 0 ≤ l.remaining_amount) →
      totalRemaining lots < rem →
      reduceLoop lots rem =
        { remaining_amount := rem - totalRemaining lots
          remaining_amount_from_last_buy := -1
          pending_rest := [] } := by
  induction lots with
  | nil =>
    intro rem _ _
    have h0 : totalRemaining ([] : List AssetAcquisitionEvent) = 0 := rfl
    rw [h0]
    simp [reduceLoop]
  | cons e rest ih =>
    intro rem hnn hgt
    have hnn1 : ∀ l ∈ rest, 0 ≤ l.remaining_amount :=
      fun l hl => hnn l (List.mem_cons_of_mem _ hl)
    have htail : 0 ≤ totalRemaining rest := totalRemaining_nonneg rest hnn1
    rw [totalRemaining_cons] at hgt
    have hnlt : ¬ rem < e.remaining_amount := by linarith
    have hgt1 : totalRemaining rest < rem - e.remaining_amount := by linarith
    simp only [reduceLoop, hnlt, if_false]
    rw [ih (rem - e.remaining_amount) hnn1 hgt1, totalRemaining_cons]
    congr 1
    ring

/-- Counterexample to claim C6 as stated: with an empty pending sequence and
amount 5, reduce_asset_amount returns false yet emits no critical log; and
with amount -5 (non-zero) it also returns false even though the pending lots
total at least -5, refuting the stated iff for merely non-zero amounts. -/
theorem reduce_asset_amount_silent_failure_cex :
    ((reduce_asset_amount emptyEvents 5 0).result = false) ∧
    ((reduce_asset_amount emptyEvents 5 0).critical_logged = false) ∧
    ((reduce_asset_amount emptyEvents (-5) 0).result = false) ∧
    ((-5 : ℚ) ≤ totalRemaining emptyEvents.acquisitions) := by
  refine ⟨?_, ?_, ?_, ?_⟩
  · norm_num [reduce_asset_amount, emptyEvents]
  · norm_num [reduce_asset_amount, emptyEvents]
  · norm_num [reduce_asset_amount, emptyEvents]
  · norm_num [totalRemaining, emptyEvents]

/-- Claim C6 as amended: for positive amount and positive pending lots,
reduce_asset_amount returns true iff the pending lots total at least the
amount; when it returns false the critical log fires exactly when the
pending sequence was non-empty (an empty sequence fails silently). -/
theorem reduce_asset_amount_amended (asset_events : CostBasisEvents)
    (amount : ℚ) (timestamp : ℤ)
    (hpos : ∀ l ∈ asset_events.acquisitions, 0 < l.remaining_amount)
    (h0 : 0 < amount) :
    ((reduce_asset_amount asset_events amount timestamp).result = true ↔
      amount ≤ totalRemaining asset_events.acquisitions) ∧
    ((reduce_asset_amount asset_events amount timestamp).result = false →
      (reduce_asset_amount asset_events amount timestamp).critical_logged
        = !asset_events.acquisitions.isEmpty) := by
  have hne0 : ¬ amount = 0 := ne_of_gt h0
  by_cases hA : asset_events.acquisitions = []
  · have hr : reduce_asset_amount asset_events amount timestamp
        = { result := false, events := asset_events, critical_logged := false } := by
      simp [reduce_asset_amount, hne0, hA]
    rw [hr, hA]
    constructor
    · exact iff_of_false (by simp)
        (not_le.mpr (by rw [totalRemaining_nil]; exact h0))
    · intro _
      rfl
  · have hlen : ¬ asset_events.acquisitions.length = 0 := by
      simpa [List.length_eq_zero] using hA
    have hempty : asset_events.acquisitions.isEmpty = false := by
      rcases h : asset_events.acquisitions with _ | ⟨e, r⟩
      · exact absurd h hA
      · rfl
    by_cases hle : amount ≤ totalRemaining asset_events.acquisitions
    · rcases reduceLoop_le asset_events.acquisitions amount hpos h0.le hle with
        ⟨ha, _⟩ | ⟨ha, hb, _, _⟩
      · have hr : (reduce_asset_amount asset_events amount timestamp).result
            = true := by
          simp [reduce_asset_amount, hne0, hlen, ha]
        refine ⟨iff_of_true hr hle, ?_⟩
        intro hf
        rw [hr] at hf
        cases hf
      · have hr : (reduce_asset_amount asset_events amount timestamp).result
            = true := by
          simp [reduce_asset_amount, hne0, hlen, ha, hb]
        refine ⟨iff_of_true hr hle, ?_⟩
        intro hf
        rw [hr] at hf
        cases hf
    · have hgt : totalRemaining asset_events.acquisitions < amount :=
        not_le.mp hle
      have hnn : ∀ l ∈ asset_events.acquisitions, 0 ≤ l.remaining_amount :=
        fun l hl => (hpos l hl).le
      have hout := reduceLoop_gt asset_events.acquisitions amount hnn hgt
      have hrs : amount - totalRemaining asset_events.acquisitions ≠ 0 :=
        sub_ne_zero.mpr (ne_of_gt hgt)
      have hr : reduce_asset_amount asset_events amount timestamp
          = { result := false
              events := { asset_events with acquisitions := [] }
              critical_logged := true } := by
        simp [reduce_asset_amount, hne0, hlen, hout, hrs]
      rw [hr, hempty]
      exact ⟨iff_of_false (by simp) hle, fun _ => rfl⟩

/-- Witness for the amended C6 at a concrete one-lot ledger and amount 3. -/
theorem reduce_asset_amount_amended_witness :
    (∀ l ∈ (⟨[], [sampleLot Asset.BTC 0 5 1], []⟩ :
        CostBasisEvents).acquisitions, (0 : ℚ) < l.remaining_amount) ∧
    ((0 : ℚ) < 3) ∧
    (((reduce_asset_amount ⟨[], [sampleLot Asset.BTC 0 5 1], []⟩ 3 7).result
        = true ↔
      (3 : ℚ) ≤ totalRemaining (⟨[], [sampleLot Asset.BTC 0 5 1], []⟩ :
        CostBasisEvents).acquisitions) ∧
    ((reduce_asset_amount ⟨[], [sampleLot Asset.BTC 0 5 1], []⟩ 3 7).result
        = false →
      (reduce_asset_amount ⟨[], [sampleLot Asset.BTC 0 5 1], []⟩ 3 7).critical_logged
        = !(⟨[], [sampleLot Asset.BTC 0 5 1], []⟩ :
            CostBasisEvents).acquisitions.isEmpty)) :=
  ⟨by decide, by norm_num,
    reduce_asset_amount_amended ⟨[], [sampleLot Asset.BTC 0 5 1], []⟩ 3 7
      (by decide) (by norm_num)⟩

/-- Claim C7: reducing by zero always returns true and leaves every
per-asset ledger unchanged. -/
theorem reduce_asset_amount_zero_noop (s : CalculatorState) (asset : Asset)
    (timestamp : ℤ) :
    ((reduce_asset_amount_state s asset 0 timestamp).result = true) ∧
    (∀ b, (reduce_asset_amount_state s asset 0 timestamp).state.events b
      = s.events b) := by
  constructor
  · simp [reduce_asset_amount_state, reduce_asset_amount]
  · intro b
    by_cases hb : b = eventsKey asset
    · simp [reduce_asset_amount_state, reduce_asset_amount, set_events,
        get_events, hb]
    · simp [reduce_asset_amount_state, reduce_asset_amount, set_events,
        get_events, hb]

theorem foldl_add_remaining (lots : List AssetAcquisitionEvent) :
    ∀ (a : ℚ), List.foldl
      (fun amount acquisition_event => amount + acquisition_event.remaining_amount)
      a lots = a + totalRemaining lots := by
  induction lots with
  | nil =>
    intro a
    have h0 : totalRemaining ([] : List AssetAcquisitionEvent) = 0 := rfl
    rw [h0]
    simp [List.foldl]
  | cons e rest ih =>
    intro a
    rw [List.foldl_cons, ih (a + e.remaining_amount), totalRemaining_cons]
    ring

/-- Claim C9: get_calculated_asset_amount returns none exactly when the
pending sequence is empty (whatever the used lots or spend records hold),
and otherwise returns the sum of remaining_amount over the pending lots. -/
theorem get_calculated_asset_amount_spec (asset_events : CostBasisEvents) :
    ((get_calculated_asset_amount asset_events = none) ↔
      asset_events.acquisitions = []) ∧
    (asset_events.acquisitions ≠ [] →
      get_calculated_asset_amount asset_events
        = some (totalRemaining asset_events.acquisitions)) := by
  by_cases hA : asset_events.acquisitions = []
  · constructor
    · simp [get_calculated_asset_amount, hA]
    · intro h
      exact absurd hA h
  · have hlen : ¬ asset_events.acquisitions.length = 0 := by
      simpa [List.length_eq_zero] using hA
    have hget : get_calculated_asset_amount asset_events
        = some (totalRemaining asset_events.acquisitions) := by
      simp [get_calculated_asset_amount, hlen, foldl_add_remaining]
    constructor
    · rw [hget]
      simp [hA]
    · intro _
      exact hget

/-- Witness for C9 at a ledger with one pending lot of amount 7 (and a spend
record and a used lot present, which must not matter). -/
theorem get_calculated_asset_amount_spec_witness :
    ((⟨[sampleLot Asset.BTC 0 2 1], [sampleLot Asset.BTC 1 7 1],
        [⟨3, "", 2, 1⟩]⟩ : CostBasisEvents).acquisitions ≠ []) ∧
    (((get_calculated_asset_amount
        ⟨[sampleLot Asset.BTC 0 2 1], [sampleLot Asset.BTC 1 7 1],
          [⟨3, "", 2, 1⟩]⟩ = none) ↔
      (⟨[sampleLot Asset.BTC 0 2 1], [sampleLot Asset.BTC 1 7 1],
          [⟨3, "", 2, 1⟩]⟩ : CostBasisEvents).acquisitions = []) ∧
    ((⟨[sampleLot Asset.BTC 0 2 1], [sampleLot Asset.BTC 1 7 1],
        [⟨3, "", 2, 1⟩]⟩ : CostBasisEvents).acquisitions ≠ [] →
      get_calculated_asset_amount
        ⟨[sampleLot Asset.BTC 0 2 1], [sampleLot Asset.BTC 1 7 1],
          [⟨3, "", 2, 1⟩]⟩
        = some (totalRemaining
            (⟨[sampleLot Asset.BTC 0 2 1], [sampleLot Asset.BTC 1 7 1],
              [⟨3, "", 2, 1⟩]⟩ : CostBasisEvents).acquisitions))) :=
  ⟨by decide,
    get_calculated_asset_amount_spec
      ⟨[sampleLot Asset.BTC 0 2 1], [sampleLot Asset.BTC 1 7 1],
        [⟨3, "", 2, 1⟩]⟩⟩

/-- A successful reduce (positive amount covered by positive pending lots)
returns true, lowers the pending total by exactly the amount, and leaves the
spend records and used lots untouched. -/
theorem reduce_asset_amount_total (asset_events : CostBasisEvents)
    (amount : ℚ) (timestamp : ℤ)
    (hpos : ∀ l ∈ asset_events.acquisitions, 0 < l.remaining_amount)
    (h0 : 0 < amount)
    (hle : amount ≤ totalRemaining asset_events.acquisitions) :
    ((reduce_asset_amount asset_events amount timestamp).result = true) ∧
    (totalRemaining
        (reduce_asset_amount asset_events amount timestamp).events.acquisitions
      = totalRemaining asset_events.acquisitions - amount) ∧
    ((reduce_asset_amount asset_events amount timestamp).events.spends
      = asset_events.spends) ∧
    ((reduce_asset_amount asset_events amount timestamp).events.used_acquisitions
      = asset_events.used_acquisitions) := by
  have hne0 : ¬ amount = 0 := ne_of_gt h0
  have hA : asset_events.acquisitions ≠ [] := by
    intro hc
    rw [hc, totalRemaining_nil] at hle
    linarith
  have hlen : ¬ asset_events.acquisitions.length = 0 := by
    simpa [List.length_eq_zero] using hA
  have hframe :
      ((reduce_asset_amount asset_events amount timestamp).events.spends
        = asset_events.spends) ∧
      ((reduce_asset_amount asset_events amount timestamp).events.used_acquisitions
        = asset_events.used_acquisitions) := by
    simp only [reduce_asset_amount]
    split_ifs <;> simp
  rcases reduceLoop_le asset_events.acquisitions amount hpos h0.le hle with
    ⟨ha, hb⟩ | ⟨ha, hb, hc, hd⟩
  · have hresult : (reduce_asset_amount asset_events amount timestamp).result
        = true := by
      simp [reduce_asset_amount, hne0, hlen, ha]
    have hacq :
        (reduce_asset_amount asset_events amount timestamp).events.acquisitions
        = headUpdateRemaining
            (reduceLoop asset_events.acquisitions amount).remaining_amount_from_last_buy
            (reduceLoop asset_events.acquisitions amount).pending_rest := by
      simp [reduce_asset_amount, hne0, hlen, ha]
    refine ⟨hresult, ?_, hframe.1, hframe.2⟩
    rw [hacq]
    exact hb
  · have hresult : (reduce_asset_amount asset_events amount timestamp).result
        = true := by
      simp [reduce_asset_amount, hne0, hlen, ha, hb]
    have hacq :
        (reduce_asset_amount asset_events amount timestamp).events.acquisitions
        = (reduceLoop asset_events.acquisitions amount).pending_rest := by
      simp [reduce_asset_amount, hne0, hlen, ha, hb]
    refine ⟨hresult, ?_, hframe.1, hframe.2⟩
    rw [hacq, hc, totalRemaining_nil]
    linarith

/-- Claim C4: a matched portion is tax-free iff the tax-free period setting
is non-null and lot.timestamp + period < spend timestamp; with period P, a
spend at t0 + P + 1 of a lot acquired at t0 is entirely tax-free, and a spend
at t0 + P - 1 entirely taxable. -/
theorem calculate_spend_cost_basis_taxfree_boundary
    (settings : DBSettings) (P : ℤ) (asset : Asset)
    (lot : AssetAcquisitionEvent) (spending_amount : ℚ)
    (used : List AssetAcquisitionEvent) (spends : List AssetSpendEvent)
    (hs : settings.taxfree_after_period = some P)
    (_h0 : 0 < spending_amount) (hlt : spending_amount < lot.remaining_amount) :
    (∀ (period : Option ℤ) (acquired spent : ℤ),
      at_taxfree_period period acquired spent = true ↔
        ∃ q, period = some q ∧ acquired + q < spent) ∧
    (((calculate_spend_cost_basis settings spending_amount asset
        (lot.timestamp + P + 1) ⟨used, [lot], spends⟩).1.taxable_amount = 0) ∧
     ((calculate_spend_cost_basis settings spending_amount asset
        (lot.timestamp + P + 1) ⟨used, [lot], spends⟩).1.taxable_bought_cost = 0) ∧
     ((calculate_spend_cost_basis settings spending_amount asset
        (lot.timestamp + P + 1) ⟨used, [lot], spends⟩).1.taxfree_bought_cost
       = lot.rate * spending_amount)) ∧
    (((calculate_spend_cost_basis settings spending_amount asset
        (lot.timestamp + P - 1) ⟨used, [lot], spends⟩).1.taxable_amount
       = spending_amount) ∧
     ((calculate_spend_cost_basis settings spending_amount asset
        (lot.timestamp + P - 1) ⟨used, [lot], spends⟩).1.taxable_bought_cost
       = lot.rate * spending_amount) ∧
     ((calculate_spend_cost_basis settings spending_amount asset
        (lot.timestamp + P - 1) ⟨used, [lot], spends⟩).1.taxfree_bought_cost
       = 0)) := by
  have hb1 : at_taxfree_period (some P) lot.timestamp (lot.timestamp + P + 1)
      = true := by
    simp only [at_taxfree_period, decide_eq_true_eq]
    omega
  have hb2 : at_taxfree_period (some P) lot.timestamp (lot.timestamp + P - 1)
      = false := by
    simp only [at_taxfree_period, decide_eq_false_iff_not]
    omega
  have hsent : ¬ lot.remaining_amount - spending_amount = -1 := by
    intro hc
    have hgt : 0 < lot.remaining_amount - spending_amount := by linarith
    rw [hc] at hgt
    norm_num at hgt
  refine ⟨?_, ?_, ?_⟩
  · intro period acquired spent
    cases period with
    | none => simp [at_taxfree_period]
    | some q => simp [at_taxfree_period, decide_eq_true_eq]
  · simp [calculate_spend_cost_basis, spendLoop, hs, hb1, hlt, hsent]
  · simp [calculate_spend_cost_basis, spendLoop, hs, hb2, hlt, hsent]

/-- Witness for C4: lot acquired at time 50 with amount 10 and rate 3,
period 100, spend of 4 at times 151 and 149. -/
theorem calculate_spend_cost_basis_taxfree_boundary_witness :
    (wSettingsP.taxfree_after_period = some 100) ∧
    ((0 : ℚ) < 4) ∧
    ((4 : ℚ) < (sampleLot Asset.BTC 50 10 3).remaining_amount) ∧
    ((∀ (period : Option ℤ) (acquired spent : ℤ),
      at_taxfree_period period acquired spent = true ↔
        ∃ q, period = some q ∧ acquired + q < spent) ∧
    (((calculate_spend_cost_basis wSettingsP 4 Asset.BTC
        ((sampleLot Asset.BTC 50 10 3).timestamp + 100 + 1)
        ⟨[], [sampleLot Asset.BTC 50 10 3], []⟩).1.taxable_amount = 0) ∧
     ((calculate_spend_cost_basis wSettingsP 4 Asset.BTC
        ((sampleLot Asset.BTC 50 10 3).timestamp + 100 + 1)
        ⟨[], [sampleLot Asset.BTC 50 10 3], []⟩).1.taxable_bought_cost = 0) ∧
     ((calculate_spend_cost_basis wSettingsP 4 Asset.BTC
        ((sampleLot Asset.BTC 50 10 3).timestamp + 100 + 1)
        ⟨[], [sampleLot Asset.BTC 50 10 3], []⟩).1.taxfree_bought_cost
       = (sampleLot Asset.BTC 50 10 3).rate * 4)) ∧
    (((calculate_spend_cost_basis wSettingsP 4 Asset.BTC
        ((sampleLot Asset.BTC 50 10 3).timestamp + 100 - 1)
        ⟨[], [sampleLot Asset.BTC 50 10 3], []⟩).1.taxable_amount = 4) ∧
     ((calculate_spend_cost_basis wSettingsP 4 Asset.BTC
        ((sampleLot Asset.BTC 50 10 3).timestamp + 100 - 1)
        ⟨[], [sampleLot Asset.BTC 50 10 3], []⟩).1.taxable_bought_cost
       = (sampleLot Asset.BTC 50 10 3).rate * 4) ∧
     ((calculate_spend_cost_basis wSettingsP 4 Asset.BTC
        ((sampleLot Asset.BTC 50 10 3).timestamp + 100 - 1)
        ⟨[], [sampleLot Asset.BTC 50 10 3], []⟩).1.taxfree_bought_cost = 0))) :=
  ⟨rfl, by norm_num, by decide,
    calculate_spend_cost_basis_taxfree_boundary wSettingsP 100 Asset.BTC
      (sampleLot Asset.BTC 50 10 3) 4 [] [] rfl (by norm_num) (by decide)⟩

/-- Witness for C2 at a concrete lot. -/
theorem calculate_spend_cost_basis_partial_lot_split_witness :
    ((sampleLot Asset.BTC 0 10 2).remaining_amount = 10) ∧
    (((calculate_spend_cost_basis sampleSettings 4 Asset.BTC 5
        ⟨[], [sampleLot Asset.BTC 0 10 2], []⟩).2.1.acquisitions
      = [{ sampleLot Asset.BTC 0 10 2 with remaining_amount := 6 }]) ∧
    ((calculate_spend_cost_basis sampleSettings 4 Asset.BTC 5
        ⟨[], [sampleLot Asset.BTC 0 10 2], []⟩).2.1.used_acquisitions = []) ∧
    (((calculate_spend_cost_basis sampleSettings 4 Asset.BTC 5
        ⟨[], [sampleLot Asset.BTC 0 10 2], []⟩).1.matched_acquisitions.map
          fun m => (m.amount, m.event.event))
      = [((4 : ℚ), (sampleLot Asset.BTC 0 10 2).event)]) ∧
    ((calculate_spend_cost_basis sampleSettings 4 Asset.BTC 5
        ⟨[], [sampleLot Asset.BTC 0 10 2], []⟩).1.is_complete = true)) :=
  ⟨rfl, calculate_spend_cost_basis_partial_lot_split sampleSettings Asset.BTC 5
    (sampleLot Asset.BTC 0 10 2) [] [] rfl⟩

/-- Claim C8: acquiring BTC strictly before the BTC/BCH fork timestamp
synthesizes and records (via obtain_asset) one acquisition each for BCH and
BSV with the same amount and price, returning those events; and spending BTC
before that timestamp reduces both BCH's and BSV's pending totals by the
same amount without appending any spend record to their ledgers. -/
theorem handle_prefork_btc_fork (s : CalculatorState) (location : Location)
    (timestamp : ℤ) (amount price : ℚ)
    (hts : timestamp < BTC_BCH_FORK_TS)
    (h0 : 0 < amount)
    (hposB : ∀ l ∈ (s.events Asset.BCH).acquisitions, 0 < l.remaining_amount)
    (hposS : ∀ l ∈ (s.events Asset.BSV).acquisitions, 0 < l.remaining_amount)
    (hleB : amount ≤ totalRemaining (s.events Asset.BCH).acquisitions)
    (hleS : amount ≤ totalRemaining (s.events Asset.BSV).acquisitions) :
    (∃ e1 e2 : ProcessedAccountingEvent,
      (handle_prefork_asset_acquisitions s location timestamp Asset.BTC amount
        price).2 = [e1, e2] ∧
      e1.asset = Asset.BCH ∧ e1.taxable_amount = amount ∧ e1.price = price ∧
      e2.asset = Asset.BSV ∧ e2.taxable_amount = amount ∧ e2.price = price ∧
      ((handle_prefork_asset_acquisitions s location timestamp Asset.BTC amount
          price).1.events Asset.BCH).acquisitions
        = (s.events Asset.BCH).acquisitions
          ++ [AssetAcquisitionEvent.ofEvent e1] ∧
      ((handle_prefork_asset_acquisitions s location timestamp Asset.BTC amount
          price).1.events Asset.BSV).acquisitions
        = (s.events Asset.BSV).acquisitions
          ++ [AssetAcquisitionEvent.ofEvent e2]) ∧
    ((totalRemaining ((handle_prefork_asset_spends s Asset.BTC amount
          timestamp).events Asset.BCH).acquisitions
        = totalRemaining (s.events Asset.BCH).acquisitions - amount) ∧
     (totalRemaining ((handle_prefork_asset_spends s Asset.BTC amount
          timestamp).events Asset.BSV).acquisitions
        = totalRemaining (s.events Asset.BSV).acquisitions - amount) ∧
     (((handle_prefork_asset_spends s Asset.BTC amount timestamp).events
          Asset.BCH).spends = (s.events Asset.BCH).spends) ∧
     (((handle_prefork_asset_spends s Asset.BTC amount timestamp).events
          Asset.BSV).spends = (s.events Asset.BSV).spends)) := by
  have hc1 : ¬ (Asset.BTC = Asset.ETH ∧ timestamp < ETH_DAO_FORK_TS) := by
    simp
  have hc2 : Asset.BTC = Asset.BTC ∧ timestamp < BTC_BCH_FORK_TS := ⟨rfl, hts⟩
  have hc3 : ¬ (Asset.BTC = Asset.BCH ∧ timestamp < BCH_BSV_FORK_TS) := by
    simp
  have hB := reduce_asset_amount_total (s.events Asset.BCH) amount timestamp
    hposB h0 hleB
  have hS := reduce_asset_amount_total (s.events Asset.BSV) amount timestamp
    hposS h0 hleS
  constructor
  · refine ⟨preforkEventBCH location timestamp amount price,
      preforkEventBSV location timestamp amount price,
      ?_, rfl, rfl, rfl, rfl, rfl, rfl, ?_, ?_⟩
    · simp [handle_prefork_asset_acquisitions, hts,
        preforkEventBCH, preforkEventBSV]
    · simp [handle_prefork_asset_acquisitions, hts,
        obtain_asset, set_events, get_events, eventsKey,
        AssetAcquisitionEvent.ofEvent, preforkEventBCH, preforkEventBSV]
    · simp [handle_prefork_asset_acquisitions, hts,
        obtain_asset, set_events, get_events, eventsKey,
        AssetAcquisitionEvent.ofEvent, preforkEventBCH, preforkEventBSV]
  · refine ⟨?_, ?_, ?_, ?_⟩
    · simp [handle_prefork_asset_spends, hts, reduce_asset_amount_state,
        set_events, get_events, eventsKey]
      exact hB.2.1
    · simp [handle_prefork_asset_spends, hts, reduce_asset_amount_state,
        set_events, get_events, eventsKey]
      exact hS.2.1
    · simp [handle_prefork_asset_spends, hts, reduce_asset_amount_state,
        set_events, get_events, eventsKey]
      exact hB.2.2.1
    · simp [handle_prefork_asset_spends, hts, reduce_asset_amount_state,
        set_events, get_events, eventsKey]
      exact hS.2.2.1

/-- Witness for C8 at a concrete state holding a 5-unit BCH lot and a 7-unit
BSV lot, acquiring/spending 1 BTC at time 0 (before the fork boundary). -/
theorem handle_prefork_btc_fork_witness :
    ((0 : ℤ) < BTC_BCH_FORK_TS) ∧
    ((0 : ℚ) < 1) ∧
    (∀ l ∈ (sampleState.events Asset.BCH).acquisitions,
      (0 : ℚ) < l.remaining_amount) ∧
    (∀ l ∈ (sampleState.events Asset.BSV).acquisitions,
      (0 : ℚ) < l.remaining_amount) ∧
    ((1 : ℚ) ≤ totalRemaining (sampleState.events Asset.BCH).acquisitions) ∧
    ((1 : ℚ) ≤ totalRemaining (sampleState.events Asset.BSV).acquisitions) ∧
    ((∃ e1 e2 : ProcessedAccountingEvent,
      (handle_prefork_asset_acquisitions sampleState "" 0 Asset.BTC 1 2).2
        = [e1, e2] ∧
      e1.asset = Asset.BCH ∧ e1.taxable_amount = 1 ∧ e1.price = 2 ∧
      e2.asset = Asset.BSV ∧ e2.taxable_amount = 1 ∧ e2.price = 2 ∧
      ((handle_prefork_asset_acquisitions sampleState "" 0 Asset.BTC 1
          2).1.events Asset.BCH).acquisitions
        = (sampleState.events Asset.BCH).acquisitions
          ++ [AssetAcquisitionEvent.ofEvent e1] ∧
      ((handle_prefork_asset_acquisitions sampleState "" 0 Asset.BTC 1
          2).1.events Asset.BSV).acquisitions
        = (sampleState.events Asset.BSV).acquisitions
          ++ [AssetAcquisitionEvent.ofEvent e2]) ∧
    ((totalRemaining ((handle_prefork_asset_spends sampleState Asset.BTC 1
          0).events Asset.BCH).acquisitions
        = totalRemaining (sampleState.events Asset.BCH).acquisitions - 1) ∧
     (totalRemaining ((handle_prefork_asset_spends sampleState Asset.BTC 1
          0).events Asset.BSV).acquisitions
        = totalRemaining (sampleState.events Asset.BSV).acquisitions - 1) ∧
     (((handle_prefork_asset_spends sampleState Asset.BTC 1 0).events
          Asset.BCH).spends = (sampleState.events Asset.BCH).spends) ∧
     (((handle_prefork_asset_spends sampleState Asset.BTC 1 0).events
          Asset.BSV).spends = (sampleState.events Asset.BSV).spends))) := by
  have hBCH : sampleState.events Asset.BCH
      = ⟨[], [sampleLot Asset.BCH 0 5 1], []⟩ := rfl
  have hBSV : sampleState.events Asset.BSV
      = ⟨[], [sampleLot Asset.BSV 0 7 1], []⟩ := rfl
  have hleB : (1 : ℚ) ≤ totalRemaining
      (sampleState.events Asset.BCH).acquisitions := by
    rw [hBCH]
    norm_num [totalRemaining, sampleLot, AssetAcquisitionEvent.ofEvent,
      sampleEvent]
  have hleS : (1 : ℚ) ≤ totalRemaining
      (sampleState.events Asset.BSV).acquisitions := by
    rw [hBSV]
    norm_num [totalRemaining, sampleLot, AssetAcquisitionEvent.ofEvent,
      sampleEvent]
  exact ⟨by norm_num [BTC_BCH_FORK_TS], by norm_num, by decide, by decide,
    hleB, hleS,
    handle_prefork_btc_fork sampleState "" 0 1 2
      (by norm_num [BTC_BCH_FORK_TS]) (by norm_num) (by decide) (by decide)
      hleB hleS⟩
